import Mathlib

/-!
# Verification of the E-Tool PDF table-extraction core

Shallow embedding of the extraction pipeline of the E-Tool repository:

* the content-stream tokenizer (`ContentStreamParser` in the unnamed
  content-stream-parser source, first module),
* the operator interpreter and fragment merger (`PDFParser` in
  `lib/pdf-parser.ts`, first module),
* the row-bucketing table detector (`src/utils/tableDetection.ts`),
* the region-based table extractor (`lib/table-extractor.ts`).

JavaScript numbers are modelled as rationals (`ℚ`).  Where the source can
divide by zero (producing `NaN` or `Infinity` in JavaScript) the embedding
makes the convention explicit at the definition, with a comment.  Loops with
a mutable cursor are embedded as fuel-indexed structural recursions; every
loop of the source advances its cursor on every iteration, so a fuel of
`input length + 1` is always sufficient.
-/

/-- `Math.round` of JavaScript: round half toward positive infinity. -/
def jsRound (x : ℚ) : ℤ := Rat.floor (x + 1/2)

/-- Stable insertion used to model `Array.prototype.sort` (stable since
ES2019): `le y x` means the comparator on `(y, x)` returned `≤ 0`, so an
already-placed `y` stays in front of the newly inserted `x`. -/
def insertStable {α : Type} (le : α → α → Bool) (x : α) : List α → List α
  | [] => [x]
  | y :: ys => if le y x then y :: insertStable le x ys else x :: y :: ys

/-- Stable sort by repeated insertion, processing elements left to right. -/
def sortStable {α : Type} (le : α → α → Bool) (l : List α) : List α :=
  l.foldl (fun acc x => insertStable le x acc) []

theorem insertStable_length {α : Type} (le : α → α → Bool) (x : α) (l : List α) :
    (insertStable le x l).length = l.length + 1 := by
  induction l with
  | nil => rfl
  | cons y ys ih =>
    by_cases h : le y x = true
    · simp [insertStable, h, ih]
    · simp [insertStable, h]

theorem sortStable_length {α : Type} (le : α → α → Bool) (l : List α) :
    (sortStable le l).length = l.length := by
  suffices h : ∀ (acc : List α),
      (l.foldl (fun acc x => insertStable le x acc) acc).length = acc.length + l.length by
    simpa using h []
  induction l with
  | nil => intro acc; simp
  | cons y ys ih =>
    intro acc
    simp only [List.foldl_cons, ih, insertStable_length, List.length_cons]
    omega

/-- Counting with a `forEach`-style accumulator equals `List.countP`. -/
theorem foldl_count_eq_countP {α : Type} (p : α → Bool) (l : List α) (n : ℕ) :
    l.foldl (fun n it => if p it then n + 1 else n) n = n + l.countP p := by
  induction l generalizing n with
  | nil => simp
  | cons x xs ih =>
    by_cases h : p x = true
    · simp [List.countP_cons, h, ih]; omega
    · simp [List.countP_cons, h, ih]

namespace ContentStream

/-! ## Lexer (`ContentStreamParser`, first module of the content-stream parser)

The token/value universe: `readNumber`, `readName`, `readString`,
`readHexString` and `readArray` produce values; `readOperator` produces an
operator token.  Array elements are the `.value` payloads of the nested
reads, so a single inductive covers both. -/

inductive LexVal : Type where
  | num (q : ℚ)
  | str (s : String)
  | hexstr (s : String)
  | name (s : String)
  | arr (vs : List LexVal)
  | op (s : String)
deriving Inhabited

/-- NUL, HT, LF, FF, CR, SP — the whitespace set of `skipWhitespace`. -/
def isWsByte (b : ℕ) : Bool :=
  b == 0 || b == 9 || b == 10 || b == 12 || b == 13 || b == 32

/-- `isDigit`: `0x30 ≤ b ≤ 0x39`. -/
def isDigitByte (b : ℕ) : Bool := 0x30 ≤ b && b ≤ 0x39

/-- `isRegularCharacter`: ASCII letters only. -/
def isRegularCharacter (b : ℕ) : Bool :=
  (0x41 ≤ b && b ≤ 0x5A) || (0x61 ≤ b && b ≤ 0x7A)

/-- Hex digit as accepted by `readHexString`. -/
def isHexDigitByte (b : ℕ) : Bool :=
  isDigitByte b || (0x41 ≤ b && b ≤ 0x46) || (0x61 ≤ b && b ≤ 0x66)

/-- `this.data[this.pos]`; all uses are guarded by `pos < data.length`. -/
def byteAt (data : List ℕ) (pos : ℕ) : ℕ := data.getD pos 0

/-- Dispatch guard of the number branch: digit, `+`, `-` or `.`. -/
def isNumStart (b : ℕ) : Bool :=
  isDigitByte b || b == 0x2B || b == 0x2D || b == 0x2E

/-- Model of `parseFloat` on the collected numeral: optional sign, digits,
optionally a dot and more digits (the longest valid prefix).  `parseFloat`
returns `NaN` when no digits are present; `NaN` is modelled as `0`. -/
def parseFloatQ (s : String) : ℚ :=
  let cs := s.data
  let signAndRest : ℚ × List Char :=
    match cs with
    | '-' :: r => (-1, r)
    | '+' :: r => (1, r)
    | _ => (1, cs)
  let ds := signAndRest.2.takeWhile Char.isDigit
  let rest := signAndRest.2.dropWhile Char.isDigit
  let intPart : ℕ := ds.foldl (fun n c => n * 10 + (c.toNat - 48)) 0
  match rest with
  | '.' :: r =>
      let fs := r.takeWhile Char.isDigit
      if ds.isEmpty && fs.isEmpty then 0
      else
        let fracPart : ℕ := fs.foldl (fun n c => n * 10 + (c.toNat - 48)) 0
        signAndRest.1 * ((intPart : ℚ) + (fracPart : ℚ) / ((10 : ℚ) ^ fs.length))
  | _ => if ds.isEmpty then 0 else signAndRest.1 * (intPart : ℚ)

/-- The loop of `readNumber`; returns the collected characters and the
number of bytes consumed. -/
def numLoop (data : List ℕ) : ℕ → ℕ → String → Bool → String × ℕ
  | 0, _, acc, _ => (acc, 0)
  | fuel + 1, pos, acc, isFloat =>
    if pos < data.length then
      let b := byteAt data pos
      if isDigitByte b || b == 0x2D || b == 0x2B then
        let r := numLoop data fuel (pos + 1) (acc.push (Char.ofNat b)) isFloat
        (r.1, r.2 + 1)
      else if b == 0x2E && !isFloat then
        let r := numLoop data fuel (pos + 1) (acc.push '.') true
        (r.1, r.2 + 1)
      else (acc, 0)
    else (acc, 0)

/-- `readNumber`: returns the token and the number of bytes consumed. -/
def readNumber (data : List ℕ) (pos : ℕ) : LexVal × ℕ :=
  let r := numLoop data (data.length + 1) pos "" false
  (.num (parseFloatQ r.1), r.2)

/-- `parseInt(octal, 8)` followed by `String.fromCharCode`: JavaScript
parses the longest octal prefix; an empty prefix gives `NaN` and
`fromCharCode(NaN)` is the NUL character, modelled as value `0`. -/
def parseOctalBytes (ds : List ℕ) : ℕ :=
  let oct := ds.takeWhile (fun d => d ≤ 0x37)
  oct.foldl (fun n d => n * 8 + (d - 0x30)) 0

/-- The loop of `readString`, with the escape flag and the parenthesis
depth as explicit state; returns collected text and bytes consumed.
On the `)` that brings the depth to zero the loop consumes it and stops;
at end of input it simply stops — the source raises no error. -/
def strLoop (data : List ℕ) : ℕ → ℕ → String → Bool → ℕ → String × ℕ
  | 0, _, acc, _, _ => (acc, 0)
  | fuel + 1, pos, acc, escaped, depth =>
    if pos < data.length then
      let b := byteAt data pos
      if escaped then
        if b == 0x6E then
          let r := strLoop data fuel (pos + 1) (acc.push '\n') false depth
          (r.1, r.2 + 1)
        else if b == 0x72 then
          let r := strLoop data fuel (pos + 1) (acc.push '\r') false depth
          (r.1, r.2 + 1)
        else if b == 0x74 then
          let r := strLoop data fuel (pos + 1) (acc.push '\t') false depth
          (r.1, r.2 + 1)
        else if b == 0x62 then
          let r := strLoop data fuel (pos + 1) (acc.push (Char.ofNat 8)) false depth
          (r.1, r.2 + 1)
        else if b == 0x66 then
          let r := strLoop data fuel (pos + 1) (acc.push (Char.ofNat 12)) false depth
          (r.1, r.2 + 1)
        else if b == 0x5C || b == 0x28 || b == 0x29 then
          let r := strLoop data fuel (pos + 1) (acc.push (Char.ofNat b)) false depth
          (r.1, r.2 + 1)
        else if isDigitByte b then
          -- octal escape: up to two further digit bytes are consumed
          let d1 := decide (pos + 1 < data.length) && isDigitByte (byteAt data (pos + 1))
          let d2 := d1 && decide (pos + 2 < data.length) && isDigitByte (byteAt data (pos + 2))
          let digits := b :: (if d1 then [byteAt data (pos + 1)] else [])
            ++ (if d2 then [byteAt data (pos + 2)] else [])
          let extra : ℕ := if d2 then 2 else if d1 then 1 else 0
          let r := strLoop data fuel (pos + 1 + extra)
            (acc.push (Char.ofNat (parseOctalBytes digits))) false depth
          (r.1, r.2 + 1 + extra)
        else
          let r := strLoop data fuel (pos + 1) (acc.push (Char.ofNat b)) false depth
          (r.1, r.2 + 1)
      else if b == 0x5C then
        let r := strLoop data fuel (pos + 1) acc true depth
        (r.1, r.2 + 1)
      else if b == 0x28 then
        let r := strLoop data fuel (pos + 1) (acc.push '(') false (depth + 1)
        (r.1, r.2 + 1)
      else if b == 0x29 then
        if depth = 1 then (acc, 1)
        else
          let r := strLoop data fuel (pos + 1) (acc.push ')') false (depth - 1)
          (r.1, r.2 + 1)
      else
        let r := strLoop data fuel (pos + 1) (acc.push (Char.ofNat b)) false depth
        (r.1, r.2 + 1)
    else (acc, 0)

/-- `readString`: consumes the opening `(` then runs the loop. -/
def readString (data : List ℕ) (pos : ℕ) : LexVal × ℕ :=
  let r := strLoop data (data.length + 1) (pos + 1) "" false 1
  (.str r.1, r.2 + 1)

/-- Value of one `#hh` hex pair in `readName`; invalid digits are modelled
as value `0` (JavaScript builds the character from `parseInt(hex, 16)`). -/
def hexDigitVal (b : ℕ) : ℕ :=
  if isDigitByte b then b - 0x30
  else if 0x41 ≤ b && b ≤ 0x46 then b - 0x41 + 10
  else if 0x61 ≤ b && b ≤ 0x66 then b - 0x61 + 10
  else 0

/-- The loop of `readName`; a `#` with fewer than two bytes of lookahead
breaks out of the loop without consuming it. -/
def nameLoop (data : List ℕ) : ℕ → ℕ → String → String × ℕ
  | 0, _, acc => (acc, 0)
  | fuel + 1, pos, acc =>
    if pos < data.length then
      let b := byteAt data pos
      if b == 0x23 then
        if pos + 2 < data.length then
          let code := hexDigitVal (byteAt data (pos + 1)) * 16 + hexDigitVal (byteAt data (pos + 2))
          let r := nameLoop data fuel (pos + 3) (acc.push (Char.ofNat code))
          (r.1, r.2 + 3)
        else (acc, 0)
      else if isRegularCharacter b || isDigitByte b || b == 0x2D || b == 0x5F then
        let r := nameLoop data fuel (pos + 1) (acc.push (Char.ofNat b))
        (r.1, r.2 + 1)
      else (acc, 0)
    else (acc, 0)

/-- `readName`: consumes the leading `/` then runs the loop. -/
def readName (data : List ℕ) (pos : ℕ) : LexVal × ℕ :=
  let r := nameLoop data (data.length + 1) (pos + 1) ""
  (.name r.1, r.2 + 1)

/-- The loop of `readHexString`: stops after a `>`, collects hex digits,
silently skips other bytes, and stops at end of input without error. -/
def hexLoop (data : List ℕ) : ℕ → ℕ → String → String × ℕ
  | 0, _, acc => (acc, 0)
  | fuel + 1, pos, acc =>
    if pos < data.length then
      let b := byteAt data pos
      if b == 0x3E then (acc, 1)
      else if isHexDigitByte b then
        let r := hexLoop data fuel (pos + 1) (acc.push (Char.ofNat b))
        (r.1, r.2 + 1)
      else
        let r := hexLoop data fuel (pos + 1) acc
        (r.1, r.2 + 1)
    else (acc, 0)

/-- `readHexString`: consumes `<`, runs the loop, pads to even length. -/
def readHexString (data : List ℕ) (pos : ℕ) : LexVal × ℕ :=
  let r := hexLoop data (data.length + 1) (pos + 1) ""
  let padded := if r.1.length % 2 = 1 then r.1.push '0' else r.1
  (.hexstr padded, r.2 + 1)

/-- The loop of `readOperator`: collects consecutive ASCII letters. -/
def opLoop (data : List ℕ) : ℕ → ℕ → String → String × ℕ
  | 0, _, acc => (acc, 0)
  | fuel + 1, pos, acc =>
    if pos < data.length then
      let b := byteAt data pos
      if isRegularCharacter b then
        let r := opLoop data fuel (pos + 1) (acc.push (Char.ofNat b))
        (r.1, r.2 + 1)
      else (acc, 0)
    else (acc, 0)

/-- `readOperator`. -/
def readOperator (data : List ℕ) (pos : ℕ) : LexVal × ℕ :=
  let r := opLoop data (data.length + 1) pos ""
  (.op r.1, r.2)

/-- `skipWhitespace`: number of whitespace bytes skipped from `pos`. -/
def wsCount (data : List ℕ) : ℕ → ℕ → ℕ
  | 0, _ => 0
  | fuel + 1, pos =>
    if pos < data.length then
      if isWsByte (byteAt data pos) then wsCount data fuel (pos + 1) + 1 else 0
    else 0

/-- Position after `skipWhitespace`. -/
def skipWs (data : List ℕ) (pos : ℕ) : ℕ :=
  pos + wsCount data (data.length + 1) pos

/-- The loop body of `readArray` after the `[` has been consumed: returns
the collected element values and the bytes consumed.  The `]` is consumed
and stops the loop; end of input stops the loop without error; bytes not
matching any element class are skipped one at a time.  A nested `[` recurses. -/
def arrBody (data : List ℕ) : ℕ → ℕ → List LexVal × ℕ
  | 0, _ => ([], 0)
  | fuel + 1, pos =>
    let w := wsCount data (data.length + 1) pos
    let p := pos + w
    if p < data.length then
      let b := byteAt data p
      if b == 0x5D then ([], w + 1)
      else if isNumStart b then
        let r := readNumber data p
        let rest := arrBody data fuel (p + r.2)
        (r.1 :: rest.1, w + r.2 + rest.2)
      else if b == 0x2F then
        let r := readName data p
        let rest := arrBody data fuel (p + r.2)
        (r.1 :: rest.1, w + r.2 + rest.2)
      else if b == 0x28 then
        let r := readString data p
        let rest := arrBody data fuel (p + r.2)
        (r.1 :: rest.1, w + r.2 + rest.2)
      else if b == 0x3C then
        let r := readHexString data p
        let rest := arrBody data fuel (p + r.2)
        (r.1 :: rest.1, w + r.2 + rest.2)
      else if b == 0x5B then
        let inner := arrBody data fuel (p + 1)
        let rest := arrBody data fuel (p + 1 + inner.2)
        (.arr inner.1 :: rest.1, w + 1 + inner.2 + rest.2)
      else
        let rest := arrBody data fuel (p + 1)
        (rest.1, w + 1 + rest.2)
    else ([], w)

/-- `readArray`: consumes `[` and runs the element loop. -/
def readArray (data : List ℕ) (pos : ℕ) : LexVal × ℕ :=
  let r := arrBody data (data.length + 1) (pos + 1)
  (.arr r.1, r.2 + 1)

/-- One dispatch step of the `tokenize` loop at a non-whitespace position:
the emitted tokens (zero or one) and the bytes consumed.  The `<<` case
skips the two dictionary-opener bytes and emits nothing; an unrecognized
byte is skipped. -/
def tokStep (data : List ℕ) (pos : ℕ) : List LexVal × ℕ :=
  if pos < data.length then
    let b := byteAt data pos
    if isNumStart b then
      let r := readNumber data pos
      ([r.1], r.2)
    else if b == 0x2F then
      let r := readName data pos
      ([r.1], r.2)
    else if b == 0x28 then
      let r := readString data pos
      ([r.1], r.2)
    else if b == 0x3C then
      if decide (pos + 1 < data.length) && (byteAt data (pos + 1) == 0x3C) then ([], 2)
      else
        let r := readHexString data pos
        ([r.1], r.2)
    else if b == 0x5B then
      let r := readArray data pos
      ([r.1], r.2)
    else if isRegularCharacter b then
      let r := readOperator data pos
      ([r.1], r.2)
    else ([], 1)
  else ([], 0)

/-- The main `tokenize` loop. -/
def tokenizeLoop (data : List ℕ) : ℕ → ℕ → List LexVal
  | 0, _ => []
  | fuel + 1, pos =>
    let p := skipWs data pos
    if p < data.length then
      let r := tokStep data p
      r.1 ++ tokenizeLoop data fuel (p + r.2)
    else []

/-- `tokenize`: the full token list of a byte buffer. -/
def tokenize (data : List ℕ) : List LexVal :=
  tokenizeLoop data (data.length + 1) 0

/-! ### Lemmas about the lexer -/

theorem byteAt_eq_getElem (data : List ℕ) (pos : ℕ) (h : pos < data.length) :
    byteAt data pos = data[pos] := List.getD_eq_getElem data 0 h

theorem regular_ne_specials {b : ℕ} (h : isRegularCharacter b = true) :
    (b == 0x5C) = false ∧ (b == 0x28) = false ∧ (b == 0x29) = false := by
  simp only [isRegularCharacter, Bool.or_eq_true, Bool.and_eq_true, decide_eq_true_eq] at h
  refine ⟨?_, ?_, ?_⟩ <;> rw [beq_eq_false_iff_ne] <;> omega

/-- On a suffix of plain letters the string loop copies every byte into the
accumulator and stops at end of input, consuming the whole suffix: the
unterminated literal string is returned, not rejected. -/
theorem strLoop_regular (data : List ℕ) :
    ∀ (fuel : ℕ) (pos : ℕ) (acc : String) (depth : ℕ),
      data.length - pos ≤ fuel →
      (∀ b ∈ data.drop pos, isRegularCharacter b = true) →
      strLoop data fuel pos acc false depth =
        (String.mk (acc.data ++ (data.drop pos).map Char.ofNat), data.length - pos) := by
  intro fuel
  induction fuel with
  | zero =>
    intro pos acc depth hf _
    have hd : data.drop pos = [] := List.drop_eq_nil_of_le (by omega)
    have h0 : data.length - pos = 0 := by omega
    cases acc with
    | mk l => simp [strLoop, hd, h0]
  | succ fuel ih =>
    intro pos acc depth hf hreg
    by_cases h : pos < data.length
    · have hb : byteAt data pos = data[pos] := byteAt_eq_getElem data pos h
      have hcons : data.drop pos = data[pos] :: data.drop (pos + 1) :=
        List.drop_eq_getElem_cons h
      have hregb : isRegularCharacter (byteAt data pos) = true := by
        rw [hb]; exact hreg _ (by rw [hcons]; exact List.mem_cons_self _ _)
      obtain ⟨h1, h2, h3⟩ := regular_ne_specials hregb
      have hreg2 : ∀ b ∈ data.drop (pos + 1), isRegularCharacter b = true := by
        intro b hbmem
        exact hreg b (by rw [hcons]; exact List.mem_cons_of_mem _ hbmem)
      rw [strLoop]
      simp only [h, if_true, h1, h2, h3, Bool.false_eq_true, if_false]
      rw [ih (pos + 1) (acc.push (Char.ofNat (byteAt data pos))) depth (by omega) hreg2]
      have hpush : (acc.push (Char.ofNat (byteAt data pos))).data
          = acc.data ++ [Char.ofNat (byteAt data pos)] := rfl
      rw [hcons, Prod.mk.injEq]
      refine ⟨?_, by omega⟩
      rw [List.map_cons, hpush, hb]
      simp [List.append_assoc]
    · have hd : data.drop pos = [] := List.drop_eq_nil_of_le (by omega)
      have h0 : data.length - pos = 0 := by omega
      cases acc with
      | mk l => rw [strLoop]; simp [h, hd, h0]

theorem wsCount_of_not_ws (data : List ℕ) (fuel pos : ℕ)
    (h : pos < data.length → isWsByte (byteAt data pos) = false) :
    wsCount data fuel pos = 0 := by
  cases fuel with
  | zero => rfl
  | succ fuel =>
    rw [wsCount]
    by_cases hp : pos < data.length
    · simp [hp, h hp]
    · simp [hp]

theorem readName_progress (data : List ℕ) (pos : ℕ) : 1 ≤ (readName data pos).2 := by
  simp only [readName]; omega

theorem readString_progress (data : List ℕ) (pos : ℕ) : 1 ≤ (readString data pos).2 := by
  simp only [readString]; omega

theorem readHexString_progress (data : List ℕ) (pos : ℕ) : 1 ≤ (readHexString data pos).2 := by
  simp only [readHexString]; omega

theorem readArray_progress (data : List ℕ) (pos : ℕ) : 1 ≤ (readArray data pos).2 := by
  simp only [readArray]; omega

theorem readNumber_progress (data : List ℕ) (pos : ℕ) (h : pos < data.length)
    (hb : isNumStart (byteAt data pos) = true) : 1 ≤ (readNumber data pos).2 := by
  simp only [readNumber]
  rw [numLoop]
  simp only [h, if_true]
  by_cases h1 : (isDigitByte (byteAt data pos) || byteAt data pos == 0x2D
      || byteAt data pos == 0x2B) = true
  · simp [h1]
  · have h2 : (byteAt data pos == 0x2E) = true := by
      simp only [isNumStart, isDigitByte, Bool.or_eq_true, Bool.and_eq_true,
        decide_eq_true_eq, beq_iff_eq] at hb
      simp only [isDigitByte, Bool.not_eq_true, Bool.or_eq_false_iff, Bool.and_eq_false_iff,
        beq_eq_false_iff_ne, decide_eq_false_iff_not] at h1
      rw [beq_iff_eq]
      omega
    simp [h1, h2]

theorem readOperator_progress (data : List ℕ) (pos : ℕ) (h : pos < data.length)
    (hb : isRegularCharacter (byteAt data pos) = true) : 1 ≤ (readOperator data pos).2 := by
  simp only [readOperator]
  rw [opLoop]
  simp [h, hb]

theorem tokStep_progress (data : List ℕ) (pos : ℕ) (h : pos < data.length) :
    1 ≤ (tokStep data pos).2 := by
  unfold tokStep
  simp only [h, if_true]
  split_ifs with hb1 hb2 hb3 hb4 hb5 hb6 hb7
  · exact readNumber_progress data pos h hb1
  · exact readName_progress data pos
  · exact readString_progress data pos
  · omega
  · exact readHexString_progress data pos
  · exact readArray_progress data pos
  · exact readOperator_progress data pos h hb7
  · omega

/-! ### Claim C7 (error handling of the lexer) and C10 (termination) -/

/-- C7, counterexample: on an unterminated literal string (`"(abc"`), an
unterminated hex string (`"<a"`), and an unterminated array (`"[1"`), the
lexer does not fail with a `MalformedStream` error: it returns an ordinary
token list holding the truncated construct (the string prefix, the
zero-padded hex digits, the elements read so far).  No error value exists
anywhere in the lexer, so nothing is "returned to the caller" and
downstream table extraction proceeds on these tokens. -/
theorem c7_no_malformed_stream_error :
    tokenize [0x28, 0x61, 0x62, 0x63] = [.str "abc"] ∧
    tokenize [0x3C, 0x61] = [.hexstr "a0"] ∧
    tokenize [0x5B, 0x31] = [.arr [.num 1]] :=
  ⟨rfl, rfl, by with_unfolding_all rfl⟩

/-- C7, amended: for every buffer consisting of `(` followed by letter
bytes and no closing `)`, the lexer consumes the whole buffer and returns
the single string token holding those letters; it raises no error. -/
theorem c7_lexer_returns_truncated_token (bs : List ℕ)
    (hreg : ∀ b ∈ bs, isRegularCharacter b = true) :
    tokenize (0x28 :: bs) = [.str (String.mk (bs.map Char.ofNat))] := by
  have hb0 : byteAt (0x28 :: bs) 0 = 0x28 := rfl
  have hws : wsCount (0x28 :: bs) ((0x28 :: bs).length + 1) 0 = 0 :=
    wsCount_of_not_ws _ _ _ (fun _ => by rw [hb0]; rfl)
  have hstr : readString (0x28 :: bs) 0
      = (.str (String.mk (bs.map Char.ofNat)), bs.length + 1) := by
    simp only [readString]
    rw [strLoop_regular (0x28 :: bs) ((0x28 :: bs).length + 1) 1 "" 1
      (by simp only [List.length_cons]; omega) (by intro b hb; exact hreg b hb)]
    simp
  have hstep : tokStep (0x28 :: bs) 0
      = ([.str (String.mk (bs.map Char.ofNat))], bs.length + 1) := by
    unfold tokStep
    simp only [hb0]
    norm_num [isNumStart, isDigitByte, hstr]
  have hlast : tokenizeLoop (0x28 :: bs) (bs.length + 1) (bs.length + 1) = [] := by
    rw [tokenizeLoop]
    have h2 : wsCount (0x28 :: bs) ((0x28 :: bs).length + 1) (bs.length + 1) = 0 :=
      wsCount_of_not_ws _ _ _ (fun hcontra => absurd hcontra (by simp))
    simp [skipWs, h2]
  show tokenizeLoop (0x28 :: bs) ((0x28 :: bs).length + 1) 0 = _
  have hfuel : (0x28 :: bs).length + 1 = (bs.length + 1) + 1 := by simp
  rw [hfuel, tokenizeLoop]
  simp only [skipWs, hfuel.symm, hws, Nat.add_zero]
  rw [if_pos (by simp : (0 : ℕ) < (0x28 :: bs).length)]
  rw [hstep]
  simp only [Nat.zero_add, hlast, List.append_nil]

/-- C7, witness: the amended theorem at the concrete buffer `"(ab"`. -/
theorem c7_lexer_returns_truncated_token_witness :
    tokenize [0x28, 0x61, 0x62] = [.str "ab"] :=
  c7_lexer_returns_truncated_token [0x61, 0x62] (by decide)

/-- C10: every dispatch branch of the tokenizer advances the read position
by at least one byte: the composite step `tokStep` consumes at least one
byte at every in-bounds position, as do `readName`, `readString`,
`readHexString` and `readArray` unconditionally (they consume their opening
byte), and `readNumber` / `readOperator` under their dispatch guards.
Consequently `tokenize` — defined by recursion on the remaining input,
justified by exactly these facts — terminates on every finite buffer with
a finite token list. -/
theorem c10_tokenizer_progress :
    ∀ (data : List ℕ) (pos : ℕ), pos < data.length →
      1 ≤ (tokStep data pos).2 ∧
      (isNumStart (byteAt data pos) = true → 1 ≤ (readNumber data pos).2) ∧
      1 ≤ (readName data pos).2 ∧
      1 ≤ (readString data pos).2 ∧
      1 ≤ (readHexString data pos).2 ∧
      1 ≤ (readArray data pos).2 ∧
      (isRegularCharacter (byteAt data pos) = true → 1 ≤ (readOperator data pos).2) := by
  intro data pos h
  exact ⟨tokStep_progress data pos h,
    fun hb => readNumber_progress data pos h hb,
    readName_progress data pos,
    readString_progress data pos,
    readHexString_progress data pos,
    readArray_progress data pos,
    fun hb => readOperator_progress data pos h hb⟩

/-- C10, witness: the progress facts at the concrete buffer `"1"`. -/
theorem c10_tokenizer_progress_witness :
    1 ≤ (tokStep [0x31] 0).2 ∧
    (isNumStart (byteAt [0x31] 0) = true → 1 ≤ (readNumber [0x31] 0).2) ∧
    1 ≤ (readName [0x31] 0).2 ∧
    1 ≤ (readString [0x31] 0).2 ∧
    1 ≤ (readHexString [0x31] 0).2 ∧
    1 ≤ (readArray [0x31] 0).2 ∧
    (isRegularCharacter (byteAt [0x31] 0) = true → 1 ≤ (readOperator [0x31] 0).2) :=
  c10_tokenizer_progress [0x31] 0 (by decide)

end ContentStream

/-- `TextElement` of `lib/pdf-parser.ts` (also the element shape consumed by
`lib/table-extractor.ts`). -/
structure TextElement where
  text : String
  x : ℚ
  y : ℚ
  width : ℚ
  height : ℚ
  fontSize : ℚ
  fontName : String
deriving DecidableEq, Repr, Inhabited

namespace PdfParser

/-! ## `PDFParser` (first module of `lib/pdf-parser.ts`) -/

/-- The sort comparator of `mergeAdjacentText`:
`(a, b) => |a.y − b.y| < 2 ? a.x − b.x : b.y − a.y`. -/
def cmpElems (a b : TextElement) : ℚ :=
  if |a.y - b.y| < 2 then a.x - b.x else b.y - a.y

/-- The element sort of `mergeAdjacentText` (stable, per `Array.sort`). -/
def sortElems (l : List TextElement) : List TextElement :=
  sortStable (fun a b => decide (cmpElems a b ≤ 0)) l

/-- The merge loop of `mergeAdjacentText`: `cur` is the running `current`
element.  The source merges when `|element.y − current.y| < 2`, the gap
`element.x − (current.x + current.width)` is `< 0.3 × current.fontSize`
(with no lower bound on the gap), and font size and name agree; on a merge
it concatenates the texts and adds the widths. -/
def mergeAux : TextElement → List TextElement → List TextElement
  | cur, [] => [cur]
  | cur, e :: rest =>
    if |e.y - cur.y| < 2 ∧ e.x - (cur.x + cur.width) < cur.fontSize * 0.3
        ∧ e.fontSize = cur.fontSize ∧ e.fontName = cur.fontName then
      mergeAux { cur with text := cur.text ++ e.text, width := cur.width + e.width } rest
    else cur :: mergeAux e rest

/-- `mergeAdjacentText`: sort, then fold the merge loop. -/
def mergeAdjacentText (elements : List TextElement) : List TextElement :=
  match sortElems elements with
  | [] => []
  | e :: rest => mergeAux e rest

/-- Values appearing as operator arguments (the shapes produced by the
content-stream parser: strings, numbers, names, arrays). -/
inductive PValue : Type where
  | str (s : String)
  | num (q : ℚ)
  | name (s : String)
  | arr (vs : List PValue)
deriving Inhabited

/-- An operator with its accumulated arguments. -/
structure COp where
  name : String
  args : List PValue

/-- Model of `arg.toString()` on operator arguments.  A string value
renders as its text and a name as its characters (pdf-lib decorates both
with `(...)` / a leading `/`; the decoration is constant and orthogonal to
the properties proved here, so the embedding uses the undecorated text).
An integer-valued number renders as its decimal digits; non-integer
rationals and arrays are outside the scope of every theorem below. -/
def valueToString : PValue → String
  | .str s => s
  | .num q => if q.den = 1 then toString q.num else toString q.num ++ "/" ++ toString q.den
  | .name s => s
  | .arr _ => ""

/-- Model of `parseFloat(arg.toString())`: the numeric value of a number
argument; non-numeric arguments give `NaN`, modelled as `0`. -/
def valueToNum : PValue → ℚ
  | .num q => q
  | _ => 0

/-- A `[a b c d e f]` matrix as the source stores it. -/
structure M6 where
  a : ℚ
  b : ℚ
  c : ℚ
  d : ℚ
  e : ℚ
  f : ℚ
deriving DecidableEq, Repr, Inhabited

/-- The identity matrix `[1, 0, 0, 1, 0, 0]`. -/
def idM6 : M6 := ⟨1, 0, 0, 1, 0, 0⟩

/-- Interpreter state: `currentFont` / `fontSize` from `this.currentState`,
`stf` is `this.currentState.transform`, `cur` is the local `currentMatrix`.
After `Tm` both variables reference one JavaScript array, so later in-place
updates of `currentMatrix[4]`/`[5]` are visible through both; `aliased`
records that sharing. -/
structure PState where
  currentFont : String
  fontSize : ℚ
  stf : M6
  cur : M6
  aliased : Bool

/-- The constructor state of `PDFParser`. -/
def initPState : PState :=
  { currentFont := "", fontSize := 0, stf := idM6, cur := idM6, aliased := false }

/-- `extractTextFromOperator`: for `TJ` the string forms of all elements of
the array argument — number elements included — filtered to those with a
non-blank trim and joined with no separator; for `Tj` the string form of
the first argument; otherwise the empty string. -/
def extractTextFromOperator (op : COp) : String :=
  if op.name = "TJ" then
    match op.args.getD 0 default with
    | .arr vs => String.join ((vs.map valueToString).filter (fun s => s.trim ≠ ""))
    | _ => ""
  else if op.name = "Tj" then
    valueToString (op.args.getD 0 default)
  else ""

/-- `transformPoint`, applied with `this.currentState.transform`. -/
def transformPoint (m : M6) (x y : ℚ) : ℚ × ℚ :=
  (m.a * x + m.c * y + m.e, m.b * x + m.d * y + m.f)

/-- `calculateTextWidth`: `text.length * fontSize * 0.6`. -/
def calcWidth (fs : ℚ) (text : String) : ℚ :=
  (text.length : ℚ) * fs * 0.6

/-- One step of the operator switch in `extractTextElements`: the next
state and the elements pushed.  Operators other than `Tf`, `Tm`, `Td`,
`TJ`, `Tj` fall through the switch. -/
def interpStep (st : PState) (op : COp) : PState × List TextElement :=
  if op.name = "Tf" then
    ({ st with
        currentFont := valueToString (op.args.getD 0 default),
        fontSize := valueToNum (op.args.getD 1 default) }, [])
  else if op.name = "Tm" then
    let m : M6 :=
      ⟨valueToNum (op.args.getD 0 default), valueToNum (op.args.getD 1 default),
       valueToNum (op.args.getD 2 default), valueToNum (op.args.getD 3 default),
       valueToNum (op.args.getD 4 default), valueToNum (op.args.getD 5 default)⟩
    ({ st with stf := m, cur := m, aliased := true }, [])
  else if op.name = "Td" then
    let cur := { st.cur with
      e := st.cur.e + valueToNum (op.args.getD 0 default),
      f := st.cur.f + valueToNum (op.args.getD 1 default) }
    ({ st with cur := cur, stf := if st.aliased then cur else st.stf }, [])
  else if op.name = "TJ" ∨ op.name = "Tj" then
    let text := extractTextFromOperator op
    if text ≠ "" then
      let p := transformPoint st.stf st.cur.e st.cur.f
      let w := calcWidth st.fontSize text
      let elem : TextElement :=
        { text := text, x := p.1, y := p.2, width := w,
          height := st.fontSize, fontSize := st.fontSize, fontName := st.currentFont }
      let cur := { st.cur with e := st.cur.e + w }
      ({ st with cur := cur, stf := if st.aliased then cur else st.stf }, [elem])
    else (st, [])
  else (st, [])

/-- The operator loop of `extractTextElements`, threading the state and
collecting pushed elements. -/
def runOps (st : PState) : List COp → List TextElement
  | [] => []
  | op :: rest =>
    let r := interpStep st op
    r.2 ++ runOps r.1 rest

/-- `extractTextElements`: run the operators, then merge adjacent text. -/
def extractTextElements (ops : List COp) : List TextElement :=
  mergeAdjacentText (runOps initPState ops)

/-! ### Claim C6 (fragment merger) and C8 (`TJ` handling) -/

theorem map_valueToString_str (ss : List String) :
    (ss.map PValue.str).map valueToString = ss := by
  induction ss with
  | nil => rfl
  | cons s rest ih => simp [valueToString, ih]

theorem mergeAdjacentText_singleton (e : TextElement) : mergeAdjacentText [e] = [e] := rfl

/-- C6, counterexample: two same-baseline, same-font fragments where the
second *overlaps* the first — the gap `b.x − (a.x + a.width) = −5` is
negative — are merged anyway (the source checks only the upper bound
`gap < 0.3 × a.font_size`, never `0 ≤ gap`), and the merged width is
`a.width + b.width = 20`, not `(b.x + b.width) − a.x = 15` as the claim
states. -/
theorem c6_merger_no_lower_bound_and_width :
    mergeAdjacentText [⟨"A", 0, 0, 10, 10, 10, "F"⟩, ⟨"B", 5, 0, 10, 10, 10, "F"⟩]
      = [⟨"AB", 0, 0, 20, 10, 10, "F"⟩] ∧
    ((5 : ℚ) - (0 + 10) < 0) ∧
    ((20 : ℚ) ≠ (5 + 10) - 0) := by
  refine ⟨by with_unfolding_all rfl, by norm_num, by norm_num⟩

/-- C6, amended: for two fragments in sort order, the merger merges them
exactly when they share a baseline (`|b.y − a.y| < 2`), the gap
`b.x − (a.x + a.width)` is less than `0.3 × a.font_size` — with **no lower
bound**, so overlapping fragments merge too — and font size and name
agree; the merged text is the verbatim concatenation and the merged width
is the **sum** `a.width + b.width`, not `(b.x + b.width) − a.x`. -/
theorem c6_merge_characterization (a b : TextElement) (hsort : cmpElems a b ≤ 0) :
    mergeAdjacentText [a, b] =
      if |b.y - a.y| < 2 ∧ b.x - (a.x + a.width) < a.fontSize * 0.3
          ∧ b.fontSize = a.fontSize ∧ b.fontName = a.fontName
      then [{ a with text := a.text ++ b.text, width := a.width + b.width }]
      else [a, b] := by
  have hle : decide (cmpElems a b ≤ 0) = true := decide_eq_true hsort
  unfold mergeAdjacentText sortElems sortStable
  simp only [List.foldl_cons, List.foldl_nil, insertStable, hle, if_true]
  simp only [mergeAux]

/-- C6, witness: the merge characterization applied to a concrete
positive-gap pair (gap `2`, bound `3`): the pair merges with width `20`. -/
theorem c6_merge_characterization_witness :
    cmpElems ⟨"A", 0, 0, 10, 10, 10, "F"⟩ ⟨"B", 12, 0, 10, 10, 10, "F"⟩ ≤ 0 ∧
    mergeAdjacentText [⟨"A", 0, 0, 10, 10, 10, "F"⟩, ⟨"B", 12, 0, 10, 10, 10, "F"⟩]
      = [⟨"AB", 0, 0, 20, 10, 10, "F"⟩] := by
  have h : cmpElems ⟨"A", 0, 0, 10, 10, 10, "F"⟩ ⟨"B", 12, 0, 10, 10, 10, "F"⟩ ≤ 0 := by
    with_unfolding_all decide
  refine ⟨h, ?_⟩
  rw [c6_merge_characterization _ _ h]
  rw [if_pos (by refine ⟨by norm_num, by norm_num, rfl, rfl⟩)]
  with_unfolding_all rfl

/-- C8, counterexample: a `TJ` whose array holds two strings produces
**one** `TextFragment` with the concatenated text `"AB"`, not one fragment
per string element; and a number element of the array is rendered into the
text (`"A7B"`) rather than applied as a `−n/1000 × font_size` kerning
shift of the translation. -/
theorem c8_one_fragment_per_tj :
    extractTextElements [⟨"Tf", [.name "F1", .num 12]⟩, ⟨"TJ", [.arr [.str "A", .str "B"]]⟩]
      = [⟨"AB", 0, 0, 72/5, 12, 12, "F1"⟩] ∧
    (extractTextElements
        [⟨"Tf", [.name "F1", .num 12]⟩, ⟨"TJ", [.arr [.str "A", .num 7, .str "B"]]⟩]).map
        (fun e => e.text) = ["A7B"] := by
  constructor
  · with_unfolding_all rfl
  · with_unfolding_all rfl

/-- C8, amended: for a `TJ` operator whose array holds string elements
(each with non-blank trim), the interpreter emits exactly **one**
`TextFragment` per `TJ` operator — its text the concatenation of the
elements — and the text matrix translation advances only by the measured
width `0.6 × font_size × length(concatenation)`; no per-element fragments
and no kerning shifts are produced. -/
theorem c8_tj_concatenation (fname : String) (fs : ℚ) (ss : List String)
    (htrim : ∀ s ∈ ss, s.trim ≠ "") (hjoin : String.join ss ≠ "") :
    extractTextElements [⟨"Tf", [.name fname, .num fs]⟩, ⟨"TJ", [.arr (ss.map .str)]⟩]
      = [⟨String.join ss, 0, 0, ((String.join ss).length : ℚ) * fs * 0.6, fs, fs, fname⟩] := by
  have htext : extractTextFromOperator ⟨"TJ", [.arr (ss.map .str)]⟩ = String.join ss := by
    unfold extractTextFromOperator
    rw [if_pos rfl]
    show String.join (((ss.map PValue.str).map valueToString).filter
      (fun s => decide (s.trim ≠ ""))) = _
    rw [map_valueToString_str]
    rw [List.filter_eq_self.mpr (fun s hs => by simpa using htrim s hs)]
  have h1 : interpStep initPState ⟨"Tf", [.name fname, .num fs]⟩
      = ({ currentFont := fname, fontSize := fs, stf := idM6, cur := idM6, aliased := false },
         []) := by
    unfold interpStep
    rw [if_pos rfl]
    rfl
  have h2 : interpStep
        { currentFont := fname, fontSize := fs, stf := idM6, cur := idM6, aliased := false }
        ⟨"TJ", [.arr (ss.map .str)]⟩
      = ({ currentFont := fname, fontSize := fs, stf := idM6,
           cur := { idM6 with e := idM6.e + calcWidth fs (String.join ss) }, aliased := false },
         [⟨String.join ss, 0, 0, calcWidth fs (String.join ss), fs, fs, fname⟩]) := by
    unfold interpStep
    rw [if_neg (show ("TJ" : String) ≠ "Tf" by decide),
        if_neg (show ("TJ" : String) ≠ "Tm" by decide),
        if_neg (show ("TJ" : String) ≠ "Td" by decide),
        if_pos (Or.inl (rfl : ("TJ" : String) = "TJ"))]
    simp only [htext]
    rw [if_pos hjoin]
    simp only [transformPoint, idM6]
    norm_num
  simp only [extractTextElements, runOps, h1, h2, List.nil_append, List.append_nil]
  rw [mergeAdjacentText_singleton]
  simp only [calcWidth]

/-- C8, witness: the amended theorem at `TJ [(A) (B)]` with font size 12. -/
theorem c8_tj_concatenation_witness :
    (∀ s ∈ (["A", "B"] : List String), s.trim ≠ "") ∧
    extractTextElements
        [⟨"Tf", [.name "F1", .num 12]⟩, ⟨"TJ", [.arr (["A", "B"].map PValue.str)]⟩]
      = [⟨String.join ["A", "B"], 0, 0,
          ((String.join ["A", "B"]).length : ℚ) * 12 * 0.6, 12, 12, "F1"⟩] :=
  ⟨by with_unfolding_all decide,
   c8_tj_concatenation "F1" 12 ["A", "B"] (by with_unfolding_all decide)
     (by with_unfolding_all decide)⟩

end PdfParser

/-- `TableCell`: the cell shape shared by `tableDetection.ts` and
`table-extractor.ts` (`rowSpan`/`colSpan` optional, unset means 1). -/
structure TableCell where
  text : String
  x : ℚ
  y : ℚ
  width : ℚ
  height : ℚ
  rowSpan : Option ℕ
  colSpan : Option ℕ
deriving DecidableEq, Repr, Inhabited

/-- A bounding box `{x, y, width, height}`. -/
structure BBox where
  x : ℚ
  y : ℚ
  width : ℚ
  height : ℚ
deriving DecidableEq, Repr, Inhabited

/-- Round `v` to the nearest multiple of `tol`:
`Math.round(v / tol) * tol`. -/
def roundTo (tol : ℚ) (v : ℚ) : ℚ := ((jsRound (v / tol) : ℤ) : ℚ) * tol

namespace TableDetection

/-! ## `src/utils/tableDetection.ts` -/

/-- A pdf.js `TextItem` restricted to the fields the detector reads:
`str`, `transform[4]` (here `tx`), `transform[5]` (here `ty`), `width`,
`height`. -/
structure TextItem where
  str : String
  tx : ℚ
  ty : ℚ
  width : ℚ
  height : ℚ
deriving DecidableEq, Repr, Inhabited

/-- The `Table` shape of `tableDetection.ts`. -/
structure TableD where
  rows : List (List TableCell)
  pageNumber : ℕ
  boundingBox : BBox
  confidence : ℚ
deriving DecidableEq, Repr, Inhabited

/-- A candidate column of `detectColumnPositions`. -/
structure Column where
  x : ℚ
  width : ℚ
  frequency : ℕ
deriving DecidableEq, Repr, Inhabited

/-- Insert an item into the row-bucket map (`Map` keyed by rounded `y`,
iteration in insertion order). -/
def addToRows (y : ℚ) (it : TextItem) : List (ℚ × List TextItem) → List (ℚ × List TextItem)
  | [] => [(y, [it])]
  | (y0, its) :: rest =>
    if y0 = y then (y0, its ++ [it]) :: rest else (y0, its) :: addToRows y it rest

/-- Step 1 of `detectTables`: bucket the items by
`Math.round(transform[5] / 2) * 2`. -/
def groupRows (items : List TextItem) : List (ℚ × List TextItem) :=
  items.foldl (fun rows it => addToRows (roundTo 2 it.ty) it rows) []

/-- Update the column map of `detectColumnPositions` at rounded `x`. -/
def addColumn (x : ℚ) (w : ℚ) : List Column → List Column
  | [] => [⟨x, w, 1⟩]
  | c :: rest =>
    if c.x = x then ⟨c.x, max c.width w, c.frequency + 1⟩ :: rest
    else c :: addColumn x w rest

/-- `detectColumnPositions`: count items per `Math.round(x / 3) * 3`
anchor, keep anchors with frequency `> 2`, sort ascending by `x`. -/
def detectColumnPositions (items : List TextItem) : List Column :=
  sortStable (fun a b => decide (a.x ≤ b.x))
    ((items.foldl (fun cols it => addColumn (roundTo 3 it.tx) it.width cols) []).filter
      (fun c => 2 < c.frequency))

/-- One item aligns with a column when its left edge is within `5` of the
column anchor or its right edge is within `5` of the column's right edge. -/
def isAlignedItem (cols : List Column) (it : TextItem) : Bool :=
  cols.any (fun col =>
    decide (|it.tx - col.x| < 5) || decide (|(it.tx + it.width) - (col.x + col.width)| < 5))

/-- `calculateAlignmentScore`: fraction of aligned items (the accumulator
loop of the source).  JavaScript divides by `items.length`; the function is
only reached with at least two items. -/
def calculateAlignmentScore (items : List TextItem) (cols : List Column) : ℚ :=
  ((items.foldl (fun n it => if isAlignedItem cols it then n + 1 else n) (0 : ℕ) : ℕ) : ℚ)
    / (items.length : ℚ)

/-- The horizontal gaps between consecutive items of a row:
`items[i].x − (items[i−1].x + items[i−1].width)`. -/
def rowGaps : List TextItem → List ℚ
  | a :: b :: rest => (b.tx - (a.tx + a.width)) :: rowGaps (b :: rest)
  | _ => []

/-- `calculateSpacingScore` = `max(0, 1 − variance / mean²)` over the gaps,
`0` for rows with fewer than two items.  When the mean gap is `0`
JavaScript produces `NaN` (treated as a non-qualifying row downstream); the
rational model evaluates `x / 0` to `0`, so the score is `1` there — no
theorem below depends on that corner. -/
def calculateSpacingScore (items : List TextItem) : ℚ :=
  if items.length < 2 then 0
  else
    let spaces := rowGaps items
    let avgSpace := spaces.sum / (spaces.length : ℚ)
    let variance := (spaces.map (fun s => (s - avgSpace) ^ 2)).sum / (spaces.length : ℚ)
    max 0 (1 - variance / (avgSpace * avgSpace))

/-- `analyzeRow`: `0` for rows with fewer than two items, otherwise the
weighted sum `0.5·alignment + 0.3·spacing + 0.2·min(density, 1)` with
`density = items.length / columns.length`.  With no candidate columns
JavaScript evaluates `n / 0 = Infinity` and `min(Infinity, 1) = 1`, which
the model makes explicit. -/
def analyzeRow (items : List TextItem) (cols : List Column) : ℚ :=
  if items.length < 2 then 0
  else
    let sorted := sortStable (fun a b => decide (a.tx ≤ b.tx)) items
    let alignmentScore := calculateAlignmentScore sorted cols
    let spacingScore := calculateSpacingScore sorted
    let cappedDensity : ℚ :=
      if cols.length = 0 then 1 else min ((items.length : ℚ) / (cols.length : ℚ)) 1
    alignmentScore * 0.5 + spacingScore * 0.3 + cappedDensity * 0.2

/-- `processTableRow`: sort the items by `x` and turn each into a cell
(the `columns` parameter is accepted and unused, as in the source). -/
def processTableRow (items : List TextItem) (cols : List Column) : List TableCell :=
  let _ := cols
  (sortStable (fun a b => decide (a.tx ≤ b.tx)) items).map
    (fun it => ⟨it.str, it.tx, it.ty, it.width, it.height, none, none⟩)

/-- Minimum of a list (`Math.min(...)`; the spread is never empty in any
reachable call). -/
def qMinD : List ℚ → ℚ
  | [] => 0
  | x :: xs => xs.foldl min x

/-- Maximum of a list (`Math.max(...)`). -/
def qMaxD : List ℚ → ℚ
  | [] => 0
  | x :: xs => xs.foldl max x

/-- `createNewTable`. -/
def createNewTable (y : ℚ) (items : List TextItem) (pageNumber : ℕ) : TableD :=
  let xs := items.map (fun it => it.tx)
  let rights := items.map (fun it => it.tx + it.width)
  { rows := [], pageNumber := pageNumber,
    boundingBox := ⟨qMinD xs, y, qMaxD rights - qMinD xs, 0⟩,
    confidence := 0 }

/-- `normalizeTableStructure`: rows sorted by descending `y` of their first
cell, cells within each row by ascending `x`. -/
def normalizeTableStructure (t : TableD) : TableD :=
  let rows := sortStable (fun r1 r2 => decide (r2.headI.y ≤ r1.headI.y)) t.rows
  { t with rows := rows.map (fun row => sortStable (fun a b => decide (a.x ≤ b.x)) row) }

/-- `finalizeTable`: set the bounding-box height and normalize. -/
def finalizeTable (t : TableD) (lastY : ℚ) : TableD :=
  normalizeTableStructure
    { t with boundingBox := { t.boundingBox with height := t.boundingBox.y - lastY } }

/-- The `while` loop computing a cell's vertical span in
`detectMergedCells`: starting from span 1, extend while the row below has a
cell within `2` of the current cell's `x` whose trimmed text is empty. -/
def vSpanGo (rows : List (List TableCell)) (i : ℕ) (cx : ℚ) : ℕ → ℕ → ℕ
  | 0, span => span
  | fuel + 1, span =>
    if i + span < rows.length then
      match (rows.getD (i + span) []).find? (fun c => decide (|c.x - cx| < 2)) with
      | none => span
      | some cb => if cb.text.trim ≠ "" then span else vSpanGo rows i cx fuel (span + 1)
    else span

/-- Vertical span of the cell at row `i` with `x`-coordinate `cx`. -/
def vSpanCount (rows : List (List TableCell)) (i : ℕ) (cx : ℚ) : ℕ :=
  vSpanGo rows i cx rows.length 1

/-- The vertical-merge pass of `detectMergedCells`: every cell of every row
but the last receives its computed `rowSpan` when it exceeds 1.  The pass
only writes `rowSpan` fields and only reads `x`/`text`, so recomputing from
the original rows matches the in-place mutation of the source. -/
def applyVerticalSpans (rows : List (List TableCell)) : List (List TableCell) :=
  rows.mapIdx (fun i row =>
    if i + 1 < rows.length then
      row.map (fun cell =>
        let span := vSpanCount rows i cell.x
        if 1 < span then { cell with rowSpan := some span } else cell)
    else row)

/-- The horizontal-merge pass of `detectMergedCells`: each cell except the
last of its row receives `colSpan = 1 + (number of immediately following
cells with blank trimmed text)` when that exceeds 1. -/
def applyHorizontalSpans (rows : List (List TableCell)) : List (List TableCell) :=
  rows.map (fun row =>
    row.mapIdx (fun j cell =>
      if j + 1 < row.length then
        let span := 1 + ((row.drop (j + 1)).takeWhile (fun c => c.text.trim = "")).length
        if 1 < span then { cell with colSpan := some span } else cell
      else cell))

/-- `detectMergedCells`: vertical pass, then horizontal pass. -/
def detectMergedCells (t : TableD) : TableD :=
  { t with rows := applyHorizontalSpans (applyVerticalSpans t.rows) }

/-- The accumulator state of the `sortedRows.forEach` loop of
`detectTables`. -/
structure DetectState where
  tables : List TableD
  currentTable : Option TableD
  consecutive : ℕ
  lastRowY : ℚ

/-- One iteration of the `sortedRows.forEach` loop of `detectTables`,
including the `minRowsForTable = 3` / `minColumnsForTable = 2` logic, the
strict `rowGap < 20` adjacency test, the JavaScript-falsy `!lastRowY` test
(true exactly when `lastRowY = 0`), and the run-close branch. -/
def detectStep (cols : List Column) (pageNumber : ℕ) (st : DetectState)
    (row : ℚ × List TextItem) : DetectState :=
  let y := row.1
  let rowItems := row.2
  let conf := analyzeRow rowItems cols
  let isTableRow := decide ((0.7 : ℚ) < conf)
  let rowGap := |y - st.lastRowY|
  let isConsecutive := decide (rowGap < 20)
  if isTableRow && (decide (st.lastRowY = 0) || isConsecutive) then
    let consec := st.consecutive + 1
    if 3 ≤ consec then
      let ct := st.currentTable.getD (createNewTable y rowItems pageNumber)
      let processedRow := processTableRow rowItems cols
      let ct :=
        if 2 ≤ processedRow.length then
          { ct with rows := ct.rows ++ [processedRow], confidence := max ct.confidence conf }
        else ct
      { st with currentTable := some ct, consecutive := consec, lastRowY := y }
    else { st with consecutive := consec, lastRowY := y }
  else
    let tables :=
      match st.currentTable with
      | some t => if 3 ≤ t.rows.length then st.tables ++ [finalizeTable t y] else st.tables
      | none => st.tables
    { tables := tables, currentTable := none, consecutive := 0, lastRowY := y }

/-- `detectTables`: bucket rows, sort them top-to-bottom, detect columns,
run the accumulator loop, flush the final run, and post-process every table
with `detectMergedCells`. -/
def detectTables (items : List TextItem) (pageNumber : ℕ) : List TableD :=
  let sortedRows := sortStable (fun a b => decide (b.1 ≤ a.1)) (groupRows items)
  let cols := detectColumnPositions items
  let st := sortedRows.foldl (detectStep cols pageNumber) ⟨[], none, 0, 0⟩
  let tables :=
    match st.currentTable with
    | some t =>
      if 3 ≤ t.rows.length then st.tables ++ [finalizeTable t st.lastRowY] else st.tables
    | none => st.tables
  tables.map detectMergedCells

/-! ### Claim C4 (per-row scoring) -/

/-- The row confidence as the claim words it: `0.5·alignment +
0.3·spacing + 0.2·density` where the alignment score is the fraction of
elements aligned to a candidate column, the spacing score is
`max(0, 1 − variance/mean²)` (0 for rows with fewer than two elements) and
the density score is `min(1, count / candidate columns)` (1 when there are
no candidate columns, matching `min(Infinity, 1)`).  Unlike `analyzeRow`,
this formula is *not* short-circuited to 0 for rows with fewer than two
elements. -/
def claimRowConfidence (items : List TextItem) (cols : List Column) : ℚ :=
  let sorted := sortStable (fun a b => decide (a.tx ≤ b.tx)) items
  let alignment := ((sorted.countP (fun it => isAlignedItem cols it)) : ℚ) / (sorted.length : ℚ)
  let spacing := calculateSpacingScore sorted
  let density : ℚ :=
    if cols.length = 0 then 1 else min ((items.length : ℚ) / (cols.length : ℚ)) 1
  0.5 * alignment + 0.3 * spacing + 0.2 * density

/-- C4, counterexample: a single-element row aligned to its column.  The
code (`analyzeRow`) returns confidence `0` outright for rows with fewer
than two elements, while the claimed formula — with only the *spacing*
term zeroed for such rows — evaluates to `0.5·1 + 0.3·0 + 0.2·1 = 0.7`.
So "the row's confidence equals 0.5·alignment + 0.3·spacing + 0.2·density"
fails for rows with fewer than two elements. -/
theorem c4_short_row_confidence_zero :
    analyzeRow [⟨"X", 0, 0, 10, 10⟩] [⟨0, 10, 5⟩] = 0 ∧
    claimRowConfidence [⟨"X", 0, 0, 10, 10⟩] [⟨0, 10, 5⟩] = 0.7 :=
  ⟨by with_unfolding_all rfl, by with_unfolding_all rfl⟩

/-- C4, amended: rows with fewer than two elements get confidence `0`
(not the weighted formula); rows with at least two elements get exactly
`0.5·alignment + 0.3·spacing + 0.2·density`; and a row qualifies as a
table row — code test `confidence > 0.7` — if and only if the claimed
formula exceeds `0.7` *and* the row has at least two elements, so the
claim's qualification condition is equivalent to the code's. -/
theorem c4_row_confidence_formula :
    (∀ (items : List TextItem) (cols : List Column),
      items.length < 2 → analyzeRow items cols = 0) ∧
    (∀ (items : List TextItem) (cols : List Column),
      2 ≤ items.length → analyzeRow items cols = claimRowConfidence items cols) ∧
    (∀ (items : List TextItem) (cols : List Column),
      ((0.7 : ℚ) < analyzeRow items cols ↔
        (0.7 : ℚ) < claimRowConfidence items cols ∧ 2 ≤ items.length)) := by
  have hshort : ∀ (items : List TextItem) (cols : List Column),
      items.length < 2 → analyzeRow items cols = 0 := by
    intro items cols h
    simp only [analyzeRow, if_pos h]
  have heq : ∀ (items : List TextItem) (cols : List Column),
      2 ≤ items.length → analyzeRow items cols = claimRowConfidence items cols := by
    intro items cols h
    simp only [analyzeRow, claimRowConfidence, calculateAlignmentScore,
      foldl_count_eq_countP]
    rw [if_neg (by omega)]
    rw [sortStable_length]
    ring_nf
  refine ⟨hshort, heq, ?_⟩
  intro items cols
  by_cases h2 : 2 ≤ items.length
  · rw [heq items cols h2]
    constructor
    · intro h; exact ⟨h, h2⟩
    · intro h; exact h.1
  · rw [hshort items cols (by omega)]
    constructor
    · intro h; exact absurd h (by norm_num)
    · intro h; exact absurd h.2 h2

/-- C4, witness: the formula equality at a concrete two-element row. -/
theorem c4_row_confidence_formula_witness :
    2 ≤ ([⟨"a", 0, 0, 5, 5⟩, ⟨"b", 10, 0, 5, 5⟩] : List TextItem).length ∧
    analyzeRow [⟨"a", 0, 0, 5, 5⟩, ⟨"b", 10, 0, 5, 5⟩] []
      = claimRowConfidence [⟨"a", 0, 0, 5, 5⟩, ⟨"b", 10, 0, 5, 5⟩] [] :=
  ⟨by decide, c4_row_confidence_formula.2.1 _ _ (by decide)⟩

/-! ### Claim C1 (run accumulation / the S1 scenario) and the
`detectTables` half of C2 -/

/-- The S1 page: header row `Name / Age / City` at baseline 700 and three
data rows at 680, 660, 640, with `x ∈ {50, 200, 280}` (widths 40, size
12) — the layout of the repository's sample generator and test. -/
def s1Items : List TextItem :=
  [⟨"Name", 50, 700, 40, 12⟩, ⟨"Age", 200, 700, 40, 12⟩, ⟨"City", 280, 700, 40, 12⟩,
   ⟨"John Smith", 50, 680, 40, 12⟩, ⟨"35", 200, 680, 40, 12⟩, ⟨"New York", 280, 680, 40, 12⟩,
   ⟨"Jane Doe", 50, 660, 40, 12⟩, ⟨"28", 200, 660, 40, 12⟩, ⟨"Los Angeles", 280, 660, 40, 12⟩,
   ⟨"Bob Johnson", 50, 640, 40, 12⟩, ⟨"42", 200, 640, 40, 12⟩, ⟨"Chicago", 280, 640, 40, 12⟩]

/-- A closed run of exactly three qualifying rows with vertical gaps of 18
(strictly below `max_row_gap = 20`). -/
def run3Items : List TextItem :=
  [⟨"a1", 50, 100, 40, 12⟩, ⟨"b1", 200, 100, 40, 12⟩, ⟨"c1", 280, 100, 40, 12⟩,
   ⟨"a2", 50, 82, 40, 12⟩, ⟨"b2", 200, 82, 40, 12⟩, ⟨"c2", 280, 82, 40, 12⟩,
   ⟨"a3", 50, 64, 40, 12⟩, ⟨"b3", 200, 64, 40, 12⟩, ⟨"c3", 280, 64, 40, 12⟩]

set_option maxRecDepth 200000 in
/-- C1: the run-accumulation claim fails on the code, and the code
contradicts the repository's own test expectations for the S1 layout.
First conjunct: all three rows of `run3Items` qualify (confidence
`> 0.7`).  Second conjunct: this closed run of three qualifying,
adjacent (gap 18 < 20) rows nevertheless produces **no** table — rows are
only collected once the consecutive counter reaches 3, so the first two
qualifying rows of every run are dropped and a run must have ≥ 5 rows to
survive the final `rows.length ≥ 3` check.  Third conjunct: the S1 page
itself produces no table at all (its baseline gaps equal 20, and
`rowGap < 20` is strict), where the claim and the repository's test demand
one 4×3 table with `cells[3][2].text = "Chicago"`. -/
theorem c1_run_accumulation_drops_rows :
    ((groupRows run3Items).map
        (fun r => decide ((0.7 : ℚ) < analyzeRow r.2 (detectColumnPositions run3Items))))
      = [true, true, true] ∧
    detectTables run3Items 1 = [] ∧
    detectTables s1Items 1 = [] := by
  refine ⟨?_, ?_, ?_⟩
  · with_unfolding_all rfl
  · with_unfolding_all rfl
  · with_unfolding_all rfl

/-- A page of seven qualifying rows (gaps 18), all of whose cells carry
text; the fifth row has three elements, the others two. -/
def raggedItems : List TextItem :=
  [⟨"a", 0, 118, 30, 10⟩, ⟨"b", 100, 118, 30, 10⟩,
   ⟨"a", 0, 100, 30, 10⟩, ⟨"b", 100, 100, 30, 10⟩,
   ⟨"a", 0, 82, 30, 10⟩, ⟨"b", 100, 82, 30, 10⟩,
   ⟨"a", 0, 64, 30, 10⟩, ⟨"b", 100, 64, 30, 10⟩,
   ⟨"a", 0, 46, 30, 10⟩, ⟨"m", 50, 46, 30, 10⟩, ⟨"b", 100, 46, 30, 10⟩,
   ⟨"a", 0, 28, 30, 10⟩, ⟨"b", 100, 28, 30, 10⟩,
   ⟨"a", 0, 10, 30, 10⟩, ⟨"b", 100, 10, 30, 10⟩]

set_option maxRecDepth 200000 in
/-- C2, counterexample: `detectTables` — the pipeline of
`tableDetection.ts`, invoked directly by the UI — emits a table whose rows
have lengths `[2, 2, 3, 2, 2]`: the claimed invariant "all of its rows
have the same length" does not hold for every table returned by the
extraction pipeline (no row-width check exists on this path). -/
theorem c2_detectTables_emits_ragged_table :
    ((detectTables raggedItems 1).map (fun t => t.rows.map List.length))
      = [[2, 2, 3, 2, 2]] := by
  with_unfolding_all rfl

end TableDetection

/-- Replace the element at an index, when it exists (models an in-place
update of a JavaScript array element). -/
def modifyAt {α : Type} (f : α → α) : ℕ → List α → List α
  | _, [] => []
  | 0, a :: as => f a :: as
  | n + 1, a :: as => a :: modifyAt f n as

namespace TableExtractor

/-! ## `TableExtractor` (`lib/table-extractor.ts`) -/

/-- A point `{x, y}`. -/
structure PointQ where
  x : ℚ
  y : ℚ
deriving DecidableEq, Repr, Inhabited

/-- A stroked line; the source's fields are `start`, `end`, `width`
(`end` is a reserved word in Lean, hence `p1`/`p2`). -/
structure LineSeg where
  p1 : PointQ
  p2 : PointQ
  width : ℚ
deriving DecidableEq, Repr, Inhabited

/-- A detected `TableRegion`. -/
structure TableRegion where
  x : ℚ
  y : ℚ
  width : ℚ
  height : ℚ
  lines : List LineSeg
  textElements : List TextElement
deriving DecidableEq, Repr, Inhabited

/-- The `Table` shape of `table-extractor.ts`. -/
structure TableX where
  cells : List (List TableCell)
  confidence : ℚ
  pageNumber : ℕ
deriving DecidableEq, Repr, Inhabited

/-- `processingMode` presets. -/
inductive Mode : Type where
  | fast
  | balanced
  | accurate
deriving DecidableEq, Repr, Inhabited

/-- `ExtractionOptions`; only `confidenceThreshold` and `cellMerging`
influence the functions below, as in the source. -/
structure ExtractionOptions where
  confidenceThreshold : ℚ
  headerDetection : Bool
  cellMerging : Bool
  formatPreservation : Bool
  processingMode : Mode
deriving DecidableEq, Repr, Inhabited

/-- The constructor defaults. -/
def defaultOptions : ExtractionOptions :=
  { confidenceThreshold := 0.7, headerDetection := true, cellMerging := true,
    formatPreservation := true, processingMode := .balanced }

/-- The loop of `groupIntoRows` over the `y`-sorted elements: a new row
starts when `|element.y − currentY| > element.height × 0.5`; each closed
row is sorted by ascending `x`. -/
def groupIntoRowsAux : List TextElement → List TextElement → ℚ → List (List TextElement)
  | [], currentRow, _ =>
    if currentRow.isEmpty then []
    else [sortStable (fun a b => decide (a.x ≤ b.x)) currentRow]
  | e :: rest, currentRow, currentY =>
    if |e.y - currentY| > e.height * 0.5 then
      (if currentRow.isEmpty then []
       else [sortStable (fun a b => decide (a.x ≤ b.x)) currentRow])
        ++ groupIntoRowsAux rest [e] e.y
    else groupIntoRowsAux rest (currentRow ++ [e]) currentY

/-- `groupIntoRows`: sort by descending `y`, then split into rows.  (On an
empty element list the source would fault reading `sorted[0].y`; the model
returns no rows, and `extractTableFromRegion` discards the region in
either semantics.) -/
def groupIntoRows (elements : List TextElement) : List (List TextElement) :=
  match sortStable (fun a b => decide (b.y ≤ a.y)) elements with
  | [] => []
  | e :: rest => groupIntoRowsAux (e :: rest) [] e.y

/-- `identifyColumnPositions`: the set of `Math.round(x/5)*5` values of
all element left and right edges, sorted ascending. -/
def identifyColumnPositions (rows : List (List TextElement)) : List ℚ :=
  let positions := rows.foldl (fun acc row =>
    row.foldl (fun acc e => acc ++ [roundTo 5 e.x, roundTo 5 (e.x + e.width)]) acc) []
  sortStable (fun a b => decide (a ≤ b)) positions.dedup

/-- The `while` loop of `createGrid` that emits empty cells for skipped
columns: while the element starts at or beyond the midpoint of the current
and next column, push an empty cell at the current column. -/
def skipCells (positions : List ℚ) (e : TextElement) : ℕ → ℕ → List TableCell × ℕ
  | 0, c => ([], c)
  | fuel + 1, c =>
    if c + 1 < positions.length ∧ (positions.getD (c + 1) 0 + positions.getD c 0) / 2 ≤ e.x then
      let cell : TableCell := ⟨"", positions.getD c 0, e.y,
        positions.getD (c + 1) 0 - positions.getD c 0, e.height, none, none⟩
      let r := skipCells positions e fuel (c + 1)
      (cell :: r.1, r.2)
    else ([], c)

/-- The trailing `while` loop of `createGrid` that fills the remaining
columns with empty cells.  For the final column the source reads
`columnPositions[currentCol + 1]`, which is `undefined` (the width becomes
`NaN`); the model reads a default of `0`.  No theorem below depends on a
filled cell's width. -/
def fillCells (positions : List ℚ) (y h : ℚ) : ℕ → ℕ → List TableCell
  | 0, _ => []
  | fuel + 1, c =>
    if c < positions.length then
      ⟨"", positions.getD c 0, y, positions.getD (c + 1) 0 - positions.getD c 0, h, none, none⟩
        :: fillCells positions y h fuel (c + 1)
    else []

/-- One row of `createGrid`: thread `currentCol` through the elements,
emitting skip cells, the element cell, and the trailing fill (which uses
`row[0]`'s `y` and `height`). -/
def rowToCells (positions : List ℚ) (row : List TextElement) : List TableCell :=
  let r := row.foldl (fun (acc : List TableCell × ℕ) e =>
      let s := skipCells positions e positions.length acc.2
      (acc.1 ++ s.1 ++ [⟨e.text, e.x, e.y, e.width, e.height, none, none⟩], s.2 + 1))
    ([], 0)
  r.1 ++ fillCells positions row.headI.y row.headI.height positions.length r.2

/-- `createGrid`: empty when fewer than two column positions exist. -/
def createGrid (rows : List (List TextElement)) (region : TableRegion) :
    List (List TableCell) :=
  let _ := region
  let positions := identifyColumnPositions rows
  if positions.length < 2 then []
  else rows.map (rowToCells positions)

/-- The horizontal-merge scan of `detectAndMergeCells` on one row: a
non-empty cell absorbs the empty cell that follows it on the same baseline
(`|y| < 2`), adding the widths and bumping `colSpan`; after an absorption
the same position is re-examined (`j--` in the source). -/
def hMergeGo : TableCell → List TableCell → List TableCell
  | c, [] => [c]
  | c, d :: rest =>
    if c.text ≠ "" ∧ d.text = "" ∧ |c.y - d.y| < 2 then
      hMergeGo { c with width := c.width + d.width, colSpan := some (c.colSpan.getD 1 + 1) } rest
    else c :: hMergeGo d rest

/-- Horizontal merging of one row. -/
def hMergeRow : List TableCell → List TableCell
  | [] => []
  | c :: rest => hMergeGo c rest

/-- The vertical-merge loop of `detectAndMergeCells` for a fixed column
`j`, scanning `i` downward: a non-empty cell above an empty, `x`-aligned
cell absorbs it — the upper cell's height grows and `rowSpan` bumps, the
lower cell is spliced out of its row, and a row emptied by the splice is
removed from the grid (with the index re-examined, `i--` then `i++`).
A missing `grid[i][j]` is skipped (reachable only through ragged rows,
where the source would fault on `undefined.text`). -/
def vCol (j : ℕ) : ℕ → ℕ → List (List TableCell) → List (List TableCell)
  | 0, _, grid => grid
  | fuel + 1, i, grid =>
    if i + 1 < grid.length then
      match (grid.getD i []).get? j, (grid.getD (i + 1) []).get? j with
      | some cur, some below =>
        if cur.text ≠ "" ∧ below.text = "" ∧ |cur.x - below.x| < 2 then
          let g1 := modifyAt (fun row => modifyAt (fun c =>
              { c with height := c.height + below.height,
                       rowSpan := some (c.rowSpan.getD 1 + 1) }) j row) i grid
          let g2 := modifyAt (fun row => row.eraseIdx j) (i + 1) g1
          if (g2.getD (i + 1) []).length = 0 then vCol j fuel i (g2.eraseIdx (i + 1))
          else vCol j fuel (i + 1) g2
        else vCol j fuel (i + 1) grid
      | _, _ => vCol j fuel (i + 1) grid
    else grid

/-- The outer `for j` loop of the vertical pass.  Its bound
`grid[0].length` is invariant during the pass: horizontal merging never
empties a row, and the vertical splices only remove cells from rows below
the first, so the bound is taken once. -/
def vSweepGo : ℕ → ℕ → List (List TableCell) → List (List TableCell)
  | 0, _, grid => grid
  | n + 1, j, grid => vSweepGo n (j + 1) (vCol j (grid.length + 1) 0 grid)

/-- `detectAndMergeCells`: horizontal merges first, then vertical. -/
def detectAndMergeCells (grid : List (List TableCell)) : List (List TableCell) :=
  let g := grid.map hMergeRow
  vSweepGo g.headI.length 0 g

/-- Successive differences of a sorted position list. -/
def diffs : List ℚ → List ℚ
  | a :: b :: rest => (b - a) :: diffs (b :: rest)
  | _ => []

/-- `analyzeLineSpacing`: gaps between sorted `start`-coordinates must all
lie within `0.3 × average` of the average. -/
def analyzeLineSpacing (lines : List LineSeg) (axisVal : LineSeg → ℚ) : Bool :=
  let positions := sortStable (fun a b => decide (a ≤ b)) (lines.map axisVal)
  let gaps := diffs positions
  if gaps.isEmpty then false
  else
    let avgGap := gaps.sum / (gaps.length : ℚ)
    gaps.all (fun g => decide (|g - avgGap| < avgGap * 0.3))

/-- `checkGridPattern`: at least two horizontal and two vertical lines,
each family with near-equal spacing. -/
def checkGridPattern (lines : List LineSeg) : Bool :=
  let horizontal := lines.filter (fun l => decide (|l.p1.y - l.p2.y| < 2))
  let vertical := lines.filter (fun l => decide (|l.p1.x - l.p2.x| < 2))
  if horizontal.length < 2 ∨ vertical.length < 2 then false
  else analyzeLineSpacing horizontal (fun l => l.p1.y)
    && analyzeLineSpacing vertical (fun l => l.p1.x)

/-- The non-empty cells of column `j`
(`grid.map(row => row[j]).filter(cell => cell && cell.text)`: a missing
`row[j]` is `undefined` and is dropped by the filter). -/
def colCellsAt (grid : List (List TableCell)) (j : ℕ) : List TableCell :=
  (grid.filterMap (fun row => row.get? j)).filter (fun c => c.text ≠ "")

/-- `calculateConfidence`: start at 1.0; ×0.8 when the set of row lengths
has more than one member; ×(1 − 0.5·empty ratio); ×(0.8 + 0.2·alignment)
where a column with at least two non-empty cells contributes
`1 / #distinct rounded x` and other columns contribute nothing, averaged
over `grid[0].length` columns; ×1.1 or ×0.9 for lines forming / not
forming a grid pattern; clamp to `[0, 1]`.  (With an empty grid JavaScript
produces `NaN` ratios where the rational model yields `0`; `createGrid`
never returns an empty grid to this function.) -/
def calculateConfidence (grid : List (List TableCell)) (region : TableRegion) : ℚ :=
  let conf : ℚ := 1
  let conf := if 1 < (grid.map List.length).toFinset.card then conf * 0.8 else conf
  let totalCells := (grid.map List.length).sum
  let emptyCells := (grid.map (fun row => (row.filter (fun c => c.text = "")).length)).sum
  let emptyRatio : ℚ := (emptyCells : ℚ) / (totalCells : ℚ)
  let conf := conf * (1 - emptyRatio * 0.5)
  let alignmentScore :=
    ((List.range grid.headI.length).map (fun j =>
      let colCells := colCellsAt grid j
      if colCells.length < 2 then (0 : ℚ)
      else 1 / (((colCells.map (fun c => roundTo 5 c.x)).toFinset.card : ℕ) : ℚ))).sum
      / (grid.headI.length : ℚ)
  let conf := conf * (0.8 + alignmentScore * 0.2)
  let conf :=
    if region.lines.isEmpty then conf
    else conf * (if checkGridPattern region.lines then 1.1 else 0.9)
  min (max conf 0) 1

/-- The fill ratio checked by `validateTable`: cells whose trimmed text is
non-empty over all cells. -/
def nonBlankRatio (t : TableX) : ℚ :=
  let totalCells := (t.cells.map List.length).sum
  let nonEmptyCells :=
    (t.cells.map (fun row => (row.filter (fun c => c.text.trim ≠ "")).length)).sum
  (nonEmptyCells : ℚ) / (totalCells : ℚ)

/-- `validateTable`: non-empty, at least 2×2, all rows of equal length,
and at least 30% of cells with non-blank trimmed text. -/
def validateTable (t : TableX) : Bool :=
  if t.cells.isEmpty || t.cells.headI.isEmpty then false
  else if t.cells.length < 2 || t.cells.headI.length < 2 then false
  else if !(t.cells.all (fun row => row.length == t.cells.headI.length)) then false
  else decide ((0.3 : ℚ) ≤ nonBlankRatio t)

/-- `extractTableFromRegion`: group rows, build the grid, optionally merge
cells, score, and apply the confidence threshold. -/
def extractTableFromRegion (opts : ExtractionOptions) (region : TableRegion) :
    Option TableX :=
  let rows := groupIntoRows region.textElements
  if rows.length < 2 then none
  else
    let grid := createGrid rows region
    if grid.length = 0 then none
    else
      let grid := if opts.cellMerging then detectAndMergeCells grid else grid
      let conf := calculateConfidence grid region
      if conf < opts.confidenceThreshold then none
      else some ⟨grid, conf, 0⟩

/-- The per-page body of `extractTables`: each region's table is kept when
`validateTable` passes, with the page number attached. -/
def extractTablesOnPage (regions : List TableRegion) (opts : ExtractionOptions)
    (pageNumber : ℕ) : List TableX :=
  ((regions.filterMap (extractTableFromRegion opts)).filter validateTable).map
    (fun t => { t with pageNumber := pageNumber })

/-- Every table emitted by `extractTablesOnPage` comes from some region,
passed `validateTable`, and differs from the extracted table only in its
page number. -/
theorem mem_extractTablesOnPage {regions : List TableRegion} {opts : ExtractionOptions}
    {pn : ℕ} {t : TableX} (h : t ∈ extractTablesOnPage regions opts pn) :
    ∃ t0, validateTable t0 = true ∧
      (∃ region ∈ regions, extractTableFromRegion opts region = some t0) ∧
      t.cells = t0.cells ∧ t.confidence = t0.confidence := by
  unfold extractTablesOnPage at h
  rw [List.mem_map] at h
  obtain ⟨t0, ht0, rfl⟩ := h
  rw [List.mem_filter] at ht0
  obtain ⟨hmem, hval⟩ := ht0
  rw [List.mem_filterMap] at hmem
  obtain ⟨region, hreg, hsome⟩ := hmem
  exact ⟨t0, hval, ⟨region, hreg, hsome⟩, rfl, rfl⟩

/-- What passing `validateTable` guarantees: at least 2×2, rectangular,
and at least 30% of cells non-blank. -/
theorem validateTable_props (t : TableX) (h : validateTable t = true) :
    2 ≤ t.cells.length ∧ 2 ≤ t.cells.headI.length ∧
    (∀ row ∈ t.cells, row.length = t.cells.headI.length) ∧
    (0.3 : ℚ) ≤ nonBlankRatio t := by
  unfold validateTable at h
  split_ifs at h with h1 h2 h3
  simp only [Bool.or_eq_true, not_or, decide_eq_true_eq, not_lt] at h2
  simp only [Bool.not_eq_true, Bool.not_eq_false', List.all_eq_true, beq_iff_eq] at h3
  exact ⟨h2.1, h2.2, h3, of_decide_eq_true h⟩

/-- A table extracted from a region carries exactly the score
`calculateConfidence` gives its final grid. -/
theorem confidence_shape {opts : ExtractionOptions} {region : TableRegion} {t : TableX}
    (h : extractTableFromRegion opts region = some t) :
    t.confidence = calculateConfidence t.cells region := by
  unfold extractTableFromRegion at h
  by_cases hr : (groupIntoRows region.textElements).length < 2
  · rw [if_pos hr] at h; exact absurd h (by simp)
  · rw [if_neg hr] at h
    by_cases hg : (createGrid (groupIntoRows region.textElements) region).length = 0
    · rw [if_pos hg] at h; exact absurd h (by simp)
    · simp only [if_neg hg] at h
      by_cases hc : calculateConfidence
          (if opts.cellMerging then
            detectAndMergeCells (createGrid (groupIntoRows region.textElements) region)
          else createGrid (groupIntoRows region.textElements) region) region
          < opts.confidenceThreshold
      · rw [if_pos hc] at h; exact absurd h (by simp)
      · rw [if_neg hc] at h
        rw [Option.some_inj] at h
        rw [← h]

/-- The final clamp of `calculateConfidence` keeps the score in `[0, 1]`. -/
theorem calculateConfidence_bounds (grid : List (List TableCell)) (region : TableRegion) :
    0 ≤ calculateConfidence grid region ∧ calculateConfidence grid region ≤ 1 := by
  simp only [calculateConfidence]
  exact ⟨le_min (le_max_right _ 0) zero_le_one, min_le_right _ 1⟩

/-- C2, amended: every table returned by the `table-extractor.ts` pipeline
(`extractTablesOnPage`, which gates on `validateTable`) has at least 2 rows
and 2 columns, all rows of the same length, at least 30% of cells with
non-blank trimmed text, and confidence in `[0, 1]`.  The other detector of
the repository, `detectTables` of `tableDetection.ts`, satisfies none of
this gating and emits ragged tables (see the counterexample). -/
theorem c2_pipeline_invariants {regions : List TableRegion} {opts : ExtractionOptions}
    {pn : ℕ} {t : TableX} (h : t ∈ extractTablesOnPage regions opts pn) :
    2 ≤ t.cells.length ∧ 2 ≤ t.cells.headI.length ∧
    (∀ row ∈ t.cells, row.length = t.cells.headI.length) ∧
    (0.3 : ℚ) ≤ nonBlankRatio t ∧
    0 ≤ t.confidence ∧ t.confidence ≤ 1 := by
  obtain ⟨t0, hval, ⟨region, -, hsome⟩, hcells, hconf⟩ := mem_extractTablesOnPage h
  obtain ⟨h1, h2, h3, h4⟩ := validateTable_props t0 hval
  have hnb : nonBlankRatio t = nonBlankRatio t0 := by
    unfold nonBlankRatio
    rw [hcells]
  have hshape := confidence_shape hsome
  refine ⟨?_, ?_, ?_, ?_, ?_, ?_⟩
  · rw [hcells]; exact h1
  · rw [hcells]; exact h2
  · rw [hcells]; exact h3
  · rw [hnb]; exact h4
  · rw [hconf, hshape]; exact (calculateConfidence_bounds t0.cells region).1
  · rw [hconf, hshape]; exact (calculateConfidence_bounds t0.cells region).2

/-- A concrete region: four fragments in two baseline rows, two column
positions, with a vertical merge opportunity in the left column. -/
def c2Region : TableRegion :=
  ⟨0, 0, 0, 0, [],
   [⟨"A", 0, 10, 2, 5, 5, "F"⟩, ⟨"B", 10, 10, 2, 5, 5, "F"⟩,
    ⟨"C", 5, 0, 2, 5, 5, "F"⟩, ⟨"D", 10, 0, 2, 5, 5, "F"⟩]⟩

/-- The table the pipeline extracts from `c2Region` under the default
options. -/
def c2Table : TableX :=
  ⟨[[⟨"A", 0, 10, 7, 10, some 2, some 2⟩, ⟨"B", 10, 10, 2, 5, none, none⟩],
    [⟨"C", 5, 0, 2, 5, none, none⟩, ⟨"D", 10, 0, 2, 5, none, none⟩]],
   19/20, 1⟩

/-- C2, witness: the invariants at the concrete table the pipeline
extracts from `c2Region`. -/
theorem c2_pipeline_invariants_witness :
    2 ≤ c2Table.cells.length ∧ 2 ≤ c2Table.cells.headI.length ∧
    (∀ row ∈ c2Table.cells, row.length = c2Table.cells.headI.length) ∧
    (0.3 : ℚ) ≤ nonBlankRatio c2Table ∧
    0 ≤ c2Table.confidence ∧ c2Table.confidence ≤ 1 :=
  c2_pipeline_invariants
    (show c2Table ∈ extractTablesOnPage [c2Region] defaultOptions 1 by
      with_unfolding_all decide)

/-- The same concrete region again, for the span-rectangularity claim. -/
def c3Region : TableRegion :=
  ⟨0, 0, 0, 0, [],
   [⟨"A", 0, 10, 2, 5, 5, "F"⟩, ⟨"B", 10, 10, 2, 5, 5, "F"⟩,
    ⟨"C", 5, 0, 2, 5, 5, "F"⟩, ⟨"D", 10, 0, 2, 5, 5, "F"⟩]⟩

/-- The table extracted from `c3Region`: the top-left cell ends up with
`colSpan = 2` and `rowSpan = 2` while both rows keep two physical cells. -/
def c3Table : TableX :=
  ⟨[[⟨"A", 0, 10, 7, 10, some 2, some 2⟩, ⟨"B", 10, 10, 2, 5, none, none⟩],
    [⟨"C", 5, 0, 2, 5, none, none⟩, ⟨"D", 10, 0, 2, 5, none, none⟩]],
   19/20, 1⟩

/-- C3, counterexample: with cell merging enabled (the default), the
pipeline emits a table whose per-row `Σ colSpan` sums are `[3, 2]` — the
rows do not agree when viewed through the spans, because the vertical
merge pass deletes the absorbed cell from the row below instead of
leaving a spanned placeholder. -/
theorem c3_span_sums_not_rectangular :
    defaultOptions.cellMerging = true ∧
    (extractTablesOnPage [c3Region] defaultOptions 1).map
        (fun t => t.cells.map (fun row => (row.map (fun c => c.colSpan.getD 1)).sum))
      = [[3, 2]] :=
  ⟨rfl, by with_unfolding_all rfl⟩

/-- C3, amended: after span detection the rectangularity the code actually
enforces (via `validateTable`) is physical — every row of an emitted table
has the same number of cell records; the `Σ colSpan` view is NOT preserved
(see the counterexample). -/
theorem c3_merged_table_rows_equal {regions : List TableRegion} {opts : ExtractionOptions}
    {pn : ℕ} {t : TableX} (_hmerge : opts.cellMerging = true)
    (h : t ∈ extractTablesOnPage regions opts pn) :
    ∀ row ∈ t.cells, row.length = t.cells.headI.length := by
  obtain ⟨t0, hval, -, hcells, -⟩ := mem_extractTablesOnPage h
  obtain ⟨-, -, h3, -⟩ := validateTable_props t0 hval
  rw [hcells]
  exact h3

/-- C3, witness: physical rectangularity at the concrete merged table. -/
theorem c3_merged_table_rows_equal_witness :
    defaultOptions.cellMerging = true ∧
    ∀ row ∈ c3Table.cells, row.length = c3Table.cells.headI.length :=
  ⟨rfl, c3_merged_table_rows_equal rfl
    (show c3Table ∈ extractTablesOnPage [c3Region] defaultOptions 1 by
      with_unfolding_all decide)⟩

/-- The confidence formula as the claim words it: every column contributes
`1 / distinct_count`, with no special case for columns holding fewer than
two non-empty cells. -/
def claimConfidenceC5 (grid : List (List TableCell)) (region : TableRegion) : ℚ :=
  let rowFactor : ℚ :=
    if ∀ a ∈ grid.map List.length, ∀ b ∈ grid.map List.length, a = b then 1 else 0.8
  let cells := grid.flatten
  let emptyRatio : ℚ := ((cells.countP (fun c => c.text = "")) : ℚ) / ((cells.length : ℕ) : ℚ)
  let avg : ℚ :=
    ((List.range grid.headI.length).map (fun j =>
      (1 : ℚ) / (((colCellsAt grid j).map (fun c => roundTo 5 c.x)).toFinset.card : ℚ))).sum
      / (grid.headI.length : ℚ)
  let lineFactor : ℚ :=
    if region.lines.isEmpty then 1
    else if checkGridPattern region.lines then 1.1 else 0.9
  min (max (1 * rowFactor * (1 - 0.5 * emptyRatio) * (0.8 + 0.2 * avg) * lineFactor) 0) 1

/-- The claim's formula amended by the guard the source has: a column with
fewer than two non-empty cells is skipped by `continue` and contributes `0`
to the column-alignment sum (the average still divides by the full column
count). -/
def amendedConfidenceC5 (grid : List (List TableCell)) (region : TableRegion) : ℚ :=
  let rowFactor : ℚ :=
    if ∀ a ∈ grid.map List.length, ∀ b ∈ grid.map List.length, a = b then 1 else 0.8
  let cells := grid.flatten
  let emptyRatio : ℚ := ((cells.countP (fun c => c.text = "")) : ℚ) / ((cells.length : ℕ) : ℚ)
  let avg : ℚ :=
    ((List.range grid.headI.length).map (fun j =>
      if (colCellsAt grid j).length < 2 then (0 : ℚ)
      else (1 : ℚ) / (((colCellsAt grid j).map (fun c => roundTo 5 c.x)).toFinset.card : ℚ))).sum
      / (grid.headI.length : ℚ)
  let lineFactor : ℚ :=
    if region.lines.isEmpty then 1
    else if checkGridPattern region.lines then 1.1 else 0.9
  min (max (1 * rowFactor * (1 - 0.5 * emptyRatio) * (0.8 + 0.2 * avg) * lineFactor) 0) 1

/-- A 2×2 grid whose right column has only one non-empty cell: the source
skips that column, the claim's formula counts it. -/
def c5Grid : List (List TableCell) :=
  [[⟨"A", 0, 0, 10, 10, none, none⟩, ⟨"X", 50, 0, 10, 10, none, none⟩],
   [⟨"B", 0, -20, 10, 10, none, none⟩, ⟨"", 50, -20, 10, 10, none, none⟩]]

/-- A region with no ruled lines, so the line factor is `1`. -/
def c5Region : TableRegion := ⟨0, 0, 0, 0, [], []⟩

/-- Counting the empty cells of a flattened grid row by row. -/
theorem countP_flatten_eq (L : List (List TableCell)) :
    L.flatten.countP (fun c => decide (c.text = ""))
      = (L.map (fun row => (row.filter (fun c => decide (c.text = ""))).length)).sum := by
  induction L with
  | nil => rfl
  | cons r rest ih =>
    rw [List.countP_eq_length_filter] at ih
    simp only [List.flatten_cons, List.countP_append, List.map_cons, List.sum_cons,
      List.countP_eq_length_filter, ih, List.filter_append, List.length_append]

/-- C5, counterexample: on `c5Grid` the source computes `63/80` while the
claim's formula gives `7/8` — the claim misses the `continue` that makes a
column with fewer than two non-empty cells contribute `0` instead of
`1 / distinct_count`. -/
theorem c5_claim_formula_cex :
    calculateConfidence c5Grid c5Region = 63/80 ∧
    claimConfidenceC5 c5Grid c5Region = 7/8 ∧
    calculateConfidence c5Grid c5Region ≠ claimConfidenceC5 c5Grid c5Region := by
  refine ⟨by with_unfolding_all rfl, by with_unfolding_all rfl, ?_⟩
  intro h
  rw [show calculateConfidence c5Grid c5Region = 63/80 by with_unfolding_all rfl,
      show claimConfidenceC5 c5Grid c5Region = 7/8 by with_unfolding_all rfl] at h
  exact absurd h (by norm_num)

/-- C5, amended: for every grid and region, `calculateConfidence` equals
the claim's pipeline of factors — ×0.8 on unequal row lengths,
×(1 − 0.5·empty ratio), ×(0.8 + 0.2·avg), the line factor, clamped to
`[0, 1]` — once the per-column contribution is corrected to `0` for
columns with fewer than two non-empty cells. -/
theorem c5_confidence_formula : ∀ (grid : List (List TableCell)) (region : TableRegion),
    calculateConfidence grid region = amendedConfidenceC5 grid region := by
  intro grid region
  simp only [calculateConfidence, amendedConfidenceC5]
  rw [countP_flatten_eq, List.length_flatten]
  by_cases hall : ∀ a ∈ grid.map List.length, ∀ b ∈ grid.map List.length, a = b
  · have hcard : ¬ (1 < (grid.map List.length).toFinset.card) := by
      rw [not_lt]
      exact Finset.card_le_one.mpr
        (fun a ha b hb => hall a (List.mem_toFinset.mp ha) b (List.mem_toFinset.mp hb))
    rw [if_neg hcard, if_pos hall]
    by_cases hl : region.lines.isEmpty = true
    · rw [if_pos hl, if_pos hl]
      congr 1
      congr 1
      push_cast
      simp only [List.map_map, Function.comp_def, one_div]
      ring
    · rw [if_neg hl, if_neg hl]
      congr 1
      congr 1
      congr 1
      push_cast
      simp only [List.map_map, Function.comp_def, one_div]
      ring
  · have hcard : 1 < (grid.map List.length).toFinset.card := by
      rw [← not_le]
      intro hle
      exact hall (fun a ha b hb =>
        Finset.card_le_one.mp hle a (List.mem_toFinset.mpr ha) b (List.mem_toFinset.mpr hb))
    rw [if_pos hcard, if_neg hall]
    by_cases hl : region.lines.isEmpty = true
    · rw [if_pos hl, if_pos hl]
      congr 1
      congr 1
      push_cast
      simp only [List.map_map, Function.comp_def, one_div]
      ring
    · rw [if_neg hl, if_neg hl]
      congr 1
      congr 1
      congr 1
      push_cast
      simp only [List.map_map, Function.comp_def, one_div]
      ring

/-- C9: the embedded pipeline is deterministic — two runs of the row
detector, and two runs of the per-page extractor, on the same input and
options return identical results. -/
theorem c9_determinism (items : List TableDetection.TextItem)
    (regions : List TableRegion) (opts : ExtractionOptions) (pn : ℕ)
    (out1 out2 : List TableDetection.TableD) (res1 res2 : List TableX)
    (h1 : out1 = TableDetection.detectTables items pn)
    (h2 : out2 = TableDetection.detectTables items pn)
    (h3 : res1 = extractTablesOnPage regions opts pn)
    (h4 : res2 = extractTablesOnPage regions opts pn) :
    out1 = out2 ∧ res1 = res2 := by
  subst h1 h2 h3 h4
  exact ⟨rfl, rfl⟩

/-- C9, witness: determinism at a concrete input. -/
theorem c9_determinism_witness :
    TableDetection.detectTables [] 1 = TableDetection.detectTables [] 1 ∧
    extractTablesOnPage [] defaultOptions 1 = extractTablesOnPage [] defaultOptions 1 :=
  c9_determinism [] [] defaultOptions 1
    (TableDetection.detectTables [] 1) (TableDetection.detectTables [] 1)
    (extractTablesOnPage [] defaultOptions 1) (extractTablesOnPage [] defaultOptions 1)
    rfl rfl rfl rfl

end TableExtractor
